import Mathlib

/-!
Verification of the `pow` terminal file explorer (src/pow.py).

Shallow embedding conventions:
* Filesystem paths are lists of name segments (`List String`); the parent of a
  path is `List.dropLast`, and the filesystem root is the path whose parent is
  itself (the empty list), mirroring `Path.parent` semantics used by the code
  (`self.current_path != self.current_path.parent`).
* Filesystem access is an explicit oracle `FS`.  A Python call that may raise
  `PermissionError`/`OSError` is modelled as an `Option` result: `none` means
  the call raised (and the caller's `try/except` decides what happens).
* Bytes are `Nat` values `< 256`; floats produced by Python's true division
  are modelled exactly as rationals (`ℚ`).
* `curses` key codes are plain `Nat`s: `KEY_UP = 259`, `KEY_DOWN = 258`,
  `KEY_BACKSPACE = 263`.
* `open_file`, `create_note` and `open_daily_note` never mutate the explorer
  fields (`open_file` hands the process off to an editor); they are therefore
  modelled as leaving the state unchanged.
-/

/-- One listed entry, the Python tuple `(display_name, is_directory, path)`
built by `scan_directory`. -/
structure Item where
  name : String
  isDir : Bool
  path : List String
deriving DecidableEq, Repr

/-- Result of inspecting one directory child with `is_dir()` / `is_file()`. -/
inductive EntryKind where
  | dir
  | file
  | other
deriving DecidableEq, Repr

/-- One raw child returned by `iterdir()`: its name, and the outcome of
inspecting it (`none` models `is_dir()`/`is_file()` raising
`PermissionError`/`OSError`, which `scan_directory` catches and skips). -/
structure RawEntry where
  name : String
  kind : Option EntryKind
deriving DecidableEq, Repr

/-- Filesystem oracle.  `children p = none` models `iterdir()` raising
`PermissionError`; `readBytes p = none` models `open(p,'rb')`/`read` raising;
`resolve p = none` models `path.resolve()` raising `PermissionError`. -/
structure FS where
  children : List String → Option (List RawEntry)
  readBytes : List String → Option (List Nat)
  resolve : List String → Option (List String)

/-- The mutable fields of the Python `FileExplorer` object. -/
structure ExplorerState where
  current_path : List String
  cursor_position : Nat
  items : List Item
  search_mode : Bool
  search_query : String
  filtered_items : List Item
  note_mode : Bool
  note_title : String
deriving DecidableEq, Repr

/-- The module-level `TEXT_EXTENSIONS` set from src/pow.py. -/
def TEXT_EXTENSIONS : List String :=
  [".txt", ".md", ".py", ".js", ".json", ".yaml", ".yml",
   ".html", ".css", ".sh", ".conf", ".cfg", ".ini", ".log",
   ".sql", ".xml", ".csv", ".toml", ".rs", ".go", ".c", ".cpp",
   ".h", ".hpp", ".java", ".php", ".rb", ".pl", ".ts", ".jsx",
   ".tsx", ".vue", ".svelte", ".scss", ".sass", ".less"]

/-- Python `str.lower()` on the ASCII strings this program compares:
character-wise lowercasing.  (Defined structurally over the character list
so that it evaluates by kernel reduction.) -/
def strLower (s : String) : String := String.mk (s.data.map Char.toLower)

/-- Index of the last `'.'` in a character list, if any. -/
def lastDotIdx : List Char → Option Nat
  | [] => none
  | c :: cs =>
    match lastDotIdx cs with
    | some i => some (i + 1)
    | none => if c = '.' then some 0 else none

/-- `pathlib.PurePath.suffix` of a file name: the part from the last dot on,
but only when that dot is neither the first nor the last character. -/
def fileSuffix (name : String) : String :=
  match lastDotIdx name.data with
  | none => ""
  | some i => if 0 < i ∧ i + 1 < name.data.length then String.mk (name.data.drop i) else ""

/-- UTF-8 continuation byte (`0x80..0xBF`). -/
def isCont (c : Nat) : Bool := 0x80 ≤ c && c ≤ 0xBF

/-- Strict UTF-8 validity of a byte sequence, as checked by Python's
`bytes.decode('utf-8')`: RFC 3629 ranges, rejecting overlong encodings,
surrogates and code points beyond U+10FFFF. -/
def validUtf8 : List Nat → Bool
  | [] => true
  | b :: rest =>
    if b < 0x80 then validUtf8 rest
    else if b < 0xC2 then false
    else if b ≤ 0xDF then
      match rest with
      | c1 :: r => isCont c1 && validUtf8 r
      | [] => false
    else if b ≤ 0xEF then
      match rest with
      | c1 :: c2 :: r =>
        (if b = 0xE0 then decide (0xA0 ≤ c1) && decide (c1 ≤ 0xBF)
         else if b = 0xED then decide (0x80 ≤ c1) && decide (c1 ≤ 0x9F)
         else isCont c1) && isCont c2 && validUtf8 r
      | _ => false
    else if b ≤ 0xF4 then
      match rest with
      | c1 :: c2 :: c3 :: r =>
        (if b = 0xF0 then decide (0x90 ≤ c1) && decide (c1 ≤ 0xBF)
         else if b = 0xF4 then decide (0x80 ≤ c1) && decide (c1 ≤ 0x8F)
         else isCont c1) && isCont c2 && isCont c3 && validUtf8 r
      | _ => false
    else false

/-- Final name component of a path, the filename `pathlib` computes suffixes
from (empty for the root path). -/
def entryName (path : List String) : String := (path.getLast?).getD ""

/-- The byte predicate from `is_text_file`:
`c < 127 and (c >= 32 or c in [9, 10, 13])`. -/
def isTextByte (c : Nat) : Bool := c < 127 && (32 ≤ c || c = 9 || c = 10 || c = 13)

/-- Count of bytes satisfying `isTextByte` (the sum in `is_text_file`). -/
def printableCount (bs : List Nat) : Nat := (bs.filter isTextByte).length

/-- `FileExplorer.is_text_file`: recognized extensions are text without any
read; extensionless files are sniffed on their first 512 bytes (empty ⇒ text,
UTF-8 decode failure ⇒ not text, else printable ratio must exceed 0.8, the
float division modelled exactly in `ℚ`); a read error (`readBytes = none`)
classifies as not text; any other (non-empty unrecognized) extension is not
text.  `sniffBytes` is the content-sniffing step on the first 512 bytes
(`chunk` in the Python code). -/
def sniffBytes (bytes : List Nat) : Bool :=
  if (bytes.take 512).isEmpty then true
  else if validUtf8 (bytes.take 512) then
    decide ((8 : ℚ) / 10 < (printableCount (bytes.take 512) : ℚ) / ((bytes.take 512).length : ℚ))
  else false

/-- `FileExplorer.is_text_file`, see the doc comment above: the recognized
extension test, then content sniffing for extensionless names only. -/
def is_text_file (fs : FS) (path : List String) : Bool :=
  if strLower (fileSuffix (entryName path)) ∈ TEXT_EXTENSIONS then true
  else if fileSuffix (entryName path) = "" then
    match fs.readBytes path with
    | none => false
    | some bytes => sniffBytes bytes
  else false

/-- Characters kept by `re.sub(r'[^a-zA-Z0-9\-_]', '', ...)`. -/
def allowedChar (c : Char) : Bool :=
  ('a' ≤ c && c ≤ 'z') || ('A' ≤ c && c ≤ 'Z') || ('0' ≤ c && c ≤ '9') || c = '-' || c = '_'

/-- Collapse of runs of hyphens, `re.sub(r'-+', '-', ...)`. -/
def collapseHyphens : List Char → List Char
  | [] => []
  | [c] => [c]
  | a :: b :: rest =>
    if a = '-' && b = '-' then collapseHyphens (b :: rest)
    else a :: collapseHyphens (b :: rest)

/-- Python `str.strip('-')`: remove leading and trailing hyphens. -/
def stripHyphens (l : List Char) : List Char :=
  ((l.dropWhile (· = '-')).reverse.dropWhile (· = '-')).reverse

/-- The sanitization pipeline of `sanitize_filename` before the emptiness
fallback: replace spaces by hyphens, keep only `[a-zA-Z0-9－_]`-class
characters, collapse hyphen runs, strip outer hyphens. -/
def sanitizeCore (title : String) : String :=
  let f1 := title.data.map fun c => if c = ' ' then '-' else c
  let f2 := f1.filter allowedChar
  String.mk (stripHyphens (collapseHyphens f2))

/-- `FileExplorer.sanitize_filename`. -/
def sanitize_filename (title : String) : String :=
  if sanitizeCore title = "" then "untitled" else sanitizeCore title

/-- Length of a longest common subsequence of two character lists. -/
def lcsLen : List Char → List Char → Nat
  | [], _ => 0
  | _ :: _, [] => 0
  | a :: as, b :: bs =>
    if a = b then lcsLen as bs + 1
    else max (lcsLen as (b :: bs)) (lcsLen (a :: as) bs)
termination_by x y => x.length + y.length

/-- Modelled from the spec: the external `rapidfuzz.fuzz.ratio` similarity
(the only piece outside this repository that `handle_search` depends on).
It is the normalized Indel similarity scaled to `[0,100]`:
`100 * (1 - dist/(|a|+|b|))` with `dist = |a|+|b| - 2*lcs`, i.e.
`200*lcs/(|a|+|b|)`, and `100` for two empty strings. -/
def fuzzRatio (a b : String) : ℚ :=
  if a.length + b.length = 0 then 100
  else 200 * (lcsLen a.data b.data : ℚ) / ((a.length : ℚ) + (b.length : ℚ))

/-- The score `handle_search` computes for one item:
`fuzz.ratio(query.lower(), item[0].lower())`. -/
def searchScore (query : String) (it : Item) : ℚ :=
  fuzzRatio (strLower query) (strLower it.name)

/-- Comparison used to model `matches.sort(key=lambda x: x[0], reverse=True)`:
`a` may precede `b` iff `a`'s score is at least `b`'s.  Inserting with this
relation reproduces Python's stable descending sort. -/
def scoreGe (a b : ℚ × Item) : Prop := b.1 ≤ a.1

instance : DecidableRel scoreGe := fun a b => inferInstanceAs (Decidable (b.1 ≤ a.1))

instance : IsTotal (ℚ × Item) scoreGe := ⟨fun a b => le_total b.1 a.1⟩

instance : IsTrans (ℚ × Item) scoreGe := ⟨fun _ _ _ h1 h2 => le_trans h2 h1⟩

/-- The filtering pipeline of `handle_search` for a given query: an empty
query returns `items` unchanged; otherwise score every item, keep scores
strictly above 40, sort by score descending (stable), and drop the scores. -/
def computeFilter (query : String) (items : List Item) : List Item :=
  if query = "" then items
  else
    let kept := (items.map fun it => (searchScore query it, it)).filter
      fun p => decide ((40 : ℚ) < p.1)
    (List.insertionSort scoreGe kept).map Prod.snd

/-- `FileExplorer.handle_search`: recompute `filtered_items` from `items`
and reset the cursor to 0.  (The caller updates `search_query` first.) -/
def handle_search (s : ExplorerState) (query : String) : ExplorerState :=
  { s with filtered_items := computeFilter query s.items, cursor_position := 0 }

/-- The synthetic parent entry prepended by `scan_directory` when the current
path is not the filesystem root (`self.current_path != self.current_path.parent`). -/
def parentEntries (p : List String) : List Item :=
  if p ≠ p.dropLast then [⟨"../", true, p.dropLast⟩] else []

/-- How `scan_directory` turns one raw child into a listed entry, if at all:
hidden names are skipped, inspection failures are skipped, directories are
always listed (with a trailing slash), files are listed iff `is_text_file`
accepts them, anything else is skipped. -/
def childItem (fs : FS) (cur : List String) (r : RawEntry) : Option Item :=
  if r.name.startsWith "." then none
  else
    match r.kind with
    | none => none
    | some .dir => some ⟨r.name ++ "/", true, cur ++ [r.name]⟩
    | some .file =>
        if is_text_file fs (cur ++ [r.name]) then some ⟨r.name, false, cur ++ [r.name]⟩
        else none
    | some .other => none

/-- Sort key of `entries.sort(key=lambda x: (not x[1], x[0].lower()))`:
lexicographic on (not-a-directory, lowercased display name). -/
def itemKey (it : Item) : Bool ×ₗ String := toLex (!it.isDir, strLower it.name)

/-- Order relation realized by the Python sort in `scan_directory`. -/
def scanLe (a b : Item) : Prop := itemKey a ≤ itemKey b

instance : DecidableRel scanLe := fun a b => inferInstanceAs (Decidable (itemKey a ≤ itemKey b))

instance : IsTotal Item scanLe := ⟨fun a b => le_total (itemKey a) (itemKey b)⟩

instance : IsTrans Item scanLe := ⟨fun _ _ _ => le_trans⟩

/-- The sorted child entries a scan of `cur` produces from raw children
`raws` (the list the Python code appends after the optional parent entry). -/
def scanEntries (fs : FS) (cur : List String) (raws : List RawEntry) : List Item :=
  List.insertionSort scanLe (raws.filterMap (childItem fs cur))

/-- `FileExplorer.scan_directory`: rebuild `items` (optional parent entry,
then the filtered, sorted children; a `PermissionError` from `iterdir`
leaves just the parent part) and clamp the cursor
(`min(cursor, len-1)` then `max(0, ·)`, which on `Nat` is just the `min`;
an empty list resets the cursor to 0). -/
def scan_directory (fs : FS) (s : ExplorerState) : ExplorerState :=
  let base := parentEntries s.current_path
  let newItems :=
    match fs.children s.current_path with
    | none => base
    | some raws => base ++ scanEntries fs s.current_path raws
  let newCursor := if newItems.isEmpty then 0 else min s.cursor_position (newItems.length - 1)
  { s with items := newItems, cursor_position := newCursor }

/-- `FileExplorer.navigate_to`: resolve the target (a `PermissionError`
there is caught with no state change at all), then set the new path, reset
the cursor and both input modes, and rescan.  `scan_directory` catches its
own listing errors, so the whole function never raises. -/
def navigate_to (fs : FS) (s : ExplorerState) (path : List String) : ExplorerState :=
  match fs.resolve path with
  | none => s
  | some p =>
      scan_directory fs
        { s with current_path := p, cursor_position := 0,
                 search_mode := false, search_query := "",
                 note_mode := false, note_title := "" }

/-- `curses.KEY_UP`. -/
def KEY_UP : Nat := 259

/-- `curses.KEY_DOWN`. -/
def KEY_DOWN : Nat := 258

/-- `curses.KEY_BACKSPACE`. -/
def KEY_BACKSPACE : Nat := 263

/-- `FileExplorer.handle_input`.  Returns the new state and the loop-continue
flag (`False` only for `q` in browse mode).  `open_file`, `create_note` and
`open_daily_note` leave the explorer fields unchanged, so the branches that
call them return the state as is.  The indexing `current_items[cursor]`
cannot be out of range when the cursor invariant holds (it is guarded by
`current_items` being non-empty and the cursor being clamped); the model
returns the state unchanged on the unreachable out-of-range case. -/
def handle_input (fs : FS) (key : Nat) (s : ExplorerState) : ExplorerState × Bool :=
  let current_items := if s.search_mode then s.filtered_items else s.items
  if s.search_mode then
    if key = 27 then
      ({ s with search_mode := false, search_query := "", cursor_position := 0 }, true)
    else if key = 127 ∨ key = KEY_BACKSPACE ∨ key = 8 then
      let q := s.search_query.dropRight 1
      (handle_search { s with search_query := q } q, true)
    else if (key = 10 ∨ key = 13) ∧ current_items ≠ [] then
      match current_items.get? s.cursor_position with
      | some sel => if sel.isDir then (navigate_to fs s sel.path, true) else (s, true)
      | none => (s, true)
    else if 32 ≤ key ∧ key ≤ 126 then
      let q := s.search_query.push (Char.ofNat key)
      (handle_search { s with search_query := q } q, true)
    else (s, true)
  else if s.note_mode then
    if key = 27 then ({ s with note_mode := false, note_title := "" }, true)
    else if key = 127 ∨ key = KEY_BACKSPACE ∨ key = 8 then
      ({ s with note_title := s.note_title.dropRight 1 }, true)
    else if key = 10 ∨ key = 13 then
      ({ s with note_mode := false, note_title := "" }, true)
    else if 32 ≤ key ∧ key ≤ 126 then
      ({ s with note_title := s.note_title.push (Char.ofNat key) }, true)
    else (s, true)
  else
    if key = 113 then (s, false)
    else if key = 47 then
      (handle_search { s with search_mode := true, search_query := "" } "", true)
    else if key = 14 then ({ s with note_mode := true, note_title := "" }, true)
    else if key = 4 then (s, true)
    else if key = KEY_UP ∧ current_items ≠ [] then
      ({ s with cursor_position := s.cursor_position - 1 }, true)
    else if key = KEY_DOWN ∧ current_items ≠ [] then
      ({ s with cursor_position := min (current_items.length - 1) (s.cursor_position + 1) }, true)
    else if (key = 10 ∨ key = 13) ∧ current_items ≠ [] then
      match current_items.get? s.cursor_position with
      | some sel => if sel.isDir then (navigate_to fs s sel.path, true) else (s, true)
      | none => (s, true)
    else (s, true)

/-- The scrolling-window computation from `render_ui` (spec name
`visible_window`): `start = max(0, cursor - rows + 1)`,
`end = min(total, start + rows)`, and if `end == total` re-tighten
`start = max(0, end - rows)`. -/
def visible_window (total cursor_index visible_rows : Int) : Int × Int :=
  let start0 := max 0 (cursor_index - visible_rows + 1)
  let end0 := min total (start0 + visible_rows)
  let start1 := if end0 = total then max 0 (end0 - visible_rows) else start0
  (start1, end0)

/-- The k-th candidate path tried by `create_note`'s collision loop inside
directory `dir` for filename stem `stem`: `stem.md` for `k = 0`, then
`stem-k.md`. -/
def notePath (dir : List String) (stem : String) (k : Nat) : List String :=
  if k = 0 then dir ++ [stem ++ ".md"] else dir ++ [stem ++ "-" ++ toString k ++ ".md"]

/-- The collision-resolution loop of `create_note` (spec name
`resolve_unique_path`): starting from `stem.md`, try `stem-1.md`,
`stem-2.md`, … until `exists` is false.  The hypothesis that some candidate
is free is exactly the loop's termination condition; the function returns
the first (least-index) free candidate. -/
def resolve_unique_path (ex : List String → Bool) (dir : List String) (stem : String)
    (h : ∃ k, ex (notePath dir stem k) = false) : List String :=
  notePath dir stem (Nat.find h)

/-- The list the cursor ranges over: `filtered_items` in search mode, else
`items` (the `current_items` local of `handle_input` and the
`display_items` local of `render_ui`). -/
def activeList (s : ExplorerState) : List Item :=
  if s.search_mode then s.filtered_items else s.items

/-- The cursor invariant of the spec: the cursor indexes into the active
list when that list is non-empty and is 0 when it is empty. -/
def cursorInv (s : ExplorerState) : Prop :=
  (activeList s = [] → s.cursor_position = 0) ∧
  (activeList s ≠ [] → s.cursor_position < (activeList s).length)

/-! Concrete inputs used to exercise the definitions. -/

/-- A plain text-file entry. -/
def itemA : Item := ⟨"a.txt", false, ["a.txt"]⟩

/-- A second plain text-file entry. -/
def itemB : Item := ⟨"b.txt", false, ["b.txt"]⟩

/-- Entry whose name fuzzy-matches the query `"ab"` imperfectly (score 80). -/
def itemZab : Item := ⟨"zab", false, ["zab"]⟩

/-- Entry whose name fuzzy-matches the query `"ab"` exactly (score 100). -/
def itemAb : Item := ⟨"ab", false, ["ab"]⟩

/-- Filesystem in which every directory is empty and no file is readable. -/
def fsEmpty : FS := ⟨fun _ => some [], fun _ => none, fun p => some p⟩

/-- Filesystem in which the directory `locked` cannot be listed. -/
def fsUnreadable : FS :=
  ⟨fun p => if p = ["locked"] then none else some [], fun _ => none, fun p => some p⟩

/-- Filesystem in which `resolve` always raises `PermissionError`. -/
def fsNoResolve : FS := ⟨fun _ => some [], fun _ => none, fun _ => none⟩

/-- Filesystem whose extensionless files read as the printable bytes "hi". -/
def fsRich : FS := ⟨fun _ => some [], fun _ => some [104, 105], fun p => some p⟩

/-- Raw children of the example directory `home`: a text file, a directory, a
hidden file, a binary-extension file, and another directory. -/
def raws4 : List RawEntry :=
  [⟨"b.txt", some .file⟩, ⟨"A", some .dir⟩, ⟨".hidden", some .file⟩,
   ⟨"x.bin", some .file⟩, ⟨"sub", some .dir⟩]

/-- Filesystem in which `home` holds `raws4` and everything else is empty. -/
def fsScan : FS :=
  ⟨fun p => if p = ["home"] then some raws4 else some [], fun _ => none, fun p => some p⟩

/-- An explorer state sitting in `home` in browse mode. -/
def sHome : ExplorerState := ⟨["home"], 0, [], false, "", [], false, ""⟩

/-- An explorer state in browse mode with two items and the cursor on the
second one. -/
def sBrowse : ExplorerState := ⟨["home"], 1, [itemA, itemB], false, "", [itemA], false, ""⟩

/-- An explorer state in search mode with two filtered items and the cursor
on the first one. -/
def sSearch : ExplorerState := ⟨[], 0, [itemA, itemB], true, "t", [itemA, itemB], false, ""⟩

/-- An explorer state in search mode about to navigate into `locked`. -/
def sBefore : ExplorerState := ⟨[], 1, [itemA, itemB], true, "q", [itemB], false, ""⟩

/-- Existence oracle for the note-collision example: `note.md` and
`note-1.md` are taken. -/
def exW : List String → Bool := fun p => decide (p = ["note.md"] ∨ p = ["note-1.md"])

/-! Claim theorems. -/

/-- C5: for `total ≥ 0`, `0 ≤ cursor_index < total` and `visible_rows > 0`,
the two-step window keeps the cursor inside `[start, end)`, stays inside
`[0, total]`, and has size `min total visible_rows`; moreover
`visible_window 10 9 3 = (7, 10)` and `visible_window 10 0 3 = (0, 3)`. -/
theorem c5_visible_window :
    (∀ total cursor_index visible_rows : Int,
        0 ≤ cursor_index → cursor_index < total → 0 < visible_rows →
        (visible_window total cursor_index visible_rows).1 ≤ cursor_index ∧
        cursor_index < (visible_window total cursor_index visible_rows).2 ∧
        0 ≤ (visible_window total cursor_index visible_rows).1 ∧
        (visible_window total cursor_index visible_rows).2 ≤ total ∧
        (visible_window total cursor_index visible_rows).2 -
          (visible_window total cursor_index visible_rows).1 = min total visible_rows) ∧
    visible_window 10 9 3 = (7, 10) ∧ visible_window 10 0 3 = (0, 3) := by
  refine ⟨?_, by decide, by decide⟩
  intro t c r h0 h1 h2
  simp only [visible_window]
  split_ifs with h <;> refine ⟨?_, ?_, ?_, ?_, ?_⟩ <;> omega

/-- C5 witness: the general part instantiated at `total = 10`,
`cursor_index = 9`, `visible_rows = 3`. -/
theorem c5_witness :
    (visible_window 10 9 3).1 ≤ 9 ∧ (9 : Int) < (visible_window 10 9 3).2 := by
  have h := c5_visible_window.1 10 9 3 (by norm_num) (by norm_num) (by norm_num)
  exact ⟨h.1, h.2.1⟩

/-- C10: an entry with a non-empty extension outside the recognized set is
classified as non-text independently of any file content (the `fs` oracle is
arbitrary, so no content is consulted). -/
theorem c10_unrecognized_extension :
    ∀ (fs : FS) (p : List String),
      fileSuffix (entryName p) ≠ "" →
      strLower (fileSuffix (entryName p)) ∉ TEXT_EXTENSIONS →
      is_text_file fs p = false := by
  intro fs p h1 h2
  unfold is_text_file
  rw [if_neg h2, if_neg h1]

/-- C10 witness: `img.jpg` is rejected even on a filesystem whose reads
return printable text. -/
theorem c10_witness : is_text_file fsRich ["img.jpg"] = false :=
  c10_unrecognized_extension fsRich ["img.jpg"] (by decide) (by decide)

/-- C8: a recognized extension (case-insensitively) is text for every
filesystem oracle, hence without reading; an extensionless entry is
classified from its first 512 bytes only: an empty file is text, a chunk
that is not valid UTF-8 is not text, and a valid non-empty chunk is text
exactly when the fraction of printable-or-{tab, newline, CR} bytes
exceeds 0.8. -/
theorem c8_is_text_file :
    (∀ (fs : FS) (p : List String),
        strLower (fileSuffix (entryName p)) ∈ TEXT_EXTENSIONS → is_text_file fs p = true) ∧
    (∀ (fs : FS) (p : List String),
        fileSuffix (entryName p) = "" → fs.readBytes p = some [] → is_text_file fs p = true) ∧
    (∀ (fs : FS) (p : List String) (bs : List Nat),
        fileSuffix (entryName p) = "" → fs.readBytes p = some bs →
        validUtf8 (bs.take 512) = false → is_text_file fs p = false) ∧
    (∀ (fs : FS) (p : List String) (bs : List Nat),
        fileSuffix (entryName p) = "" → fs.readBytes p = some bs → bs ≠ [] →
        validUtf8 (bs.take 512) = true →
        (is_text_file fs p = true ↔
          (8 : ℚ) / 10 < (printableCount (bs.take 512) : ℚ) / ((bs.take 512).length : ℚ))) ∧
    (∀ (fs1 fs2 : FS) (p : List String) (bs1 bs2 : List Nat),
        fileSuffix (entryName p) = "" →
        fs1.readBytes p = some bs1 → fs2.readBytes p = some bs2 →
        bs1.take 512 = bs2.take 512 → is_text_file fs1 p = is_text_file fs2 p) := by
  have key : ∀ (fs : FS) (p : List String), fileSuffix (entryName p) = "" →
      ∀ bs, fs.readBytes p = some bs → is_text_file fs p = sniffBytes bs := by
    intro fs p h bs hr
    unfold is_text_file
    rw [if_neg (by rw [h]; decide), if_pos h, hr]
  refine ⟨?_, ?_, ?_, ?_, ?_⟩
  · intro fs p h
    unfold is_text_file
    rw [if_pos h]
  · intro fs p h hr
    rw [key fs p h [] hr]
    rfl
  · intro fs p bs h hr hv
    rw [key fs p h bs hr]
    have hne : (bs.take 512).isEmpty = false := by
      cases he : (bs.take 512).isEmpty
      · rfl
      · rw [List.isEmpty_iff] at he
        rw [he] at hv
        exact absurd hv (by decide)
    unfold sniffBytes
    rw [hne, hv]
    rfl
  · intro fs p bs h hr hbs hv
    rw [key fs p h bs hr]
    have hne : (bs.take 512).isEmpty = false := by
      cases he : (bs.take 512).isEmpty
      · rfl
      · rw [List.isEmpty_iff, List.take_eq_nil_iff] at he
        rcases he with he | he
        · exact absurd he (by decide)
        · exact absurd he hbs
    unfold sniffBytes
    rw [hne, hv]
    simp only [Bool.false_eq_true, if_false, if_true]
    exact decide_eq_true_iff
  · intro fs1 fs2 p bs1 bs2 h h1 h2 hchunk
    rw [key fs1 p h bs1 h1, key fs2 p h bs2 h2]
    unfold sniffBytes
    rw [hchunk]

/-- C8 witness: the component statements at concrete inputs — `a.txt` is
text on any filesystem, an empty extensionless file is text, an
extensionless file holding byte `0xFF` is not. -/
theorem c8_witness :
    is_text_file fsNoResolve ["a.txt"] = true ∧
    is_text_file (⟨fun _ => some [], fun _ => some [], fun p => some p⟩ : FS) ["empty"] = true ∧
    is_text_file (⟨fun _ => some [], fun _ => some [255], fun p => some p⟩ : FS) ["blob"] = false :=
  ⟨c8_is_text_file.1 fsNoResolve ["a.txt"] (by decide),
   c8_is_text_file.2.1 _ ["empty"] (by decide) rfl,
   c8_is_text_file.2.2.1 _ ["blob"] [255] (by decide) rfl (by decide)⟩

/-- C9: the collision loop returns `directory/stem.md` when that candidate is
free, and otherwise `directory/stem-k.md` for the least positive `k` whose
candidate is free (it terminates whenever some candidate is free — the
existence hypothesis of `resolve_unique_path`); in particular with `stem.md`
and `stem-1.md` taken and `stem-2.md` free it returns `stem-2.md`. -/
theorem c9_resolve_unique_path :
    (∀ (ex : List String → Bool) (dir : List String) (stem : String)
        (h : ∃ k, ex (notePath dir stem k) = false),
        (ex (notePath dir stem 0) = false →
          resolve_unique_path ex dir stem h = notePath dir stem 0) ∧
        (ex (notePath dir stem 0) = true →
          ∃ k, 0 < k ∧ resolve_unique_path ex dir stem h = notePath dir stem k ∧
            ex (notePath dir stem k) = false ∧
            ∀ j, j < k → ex (notePath dir stem j) = true)) ∧
    (∀ (ex : List String → Bool) (dir : List String) (stem : String)
        (h2 : ex (notePath dir stem 2) = false),
        ex (notePath dir stem 0) = true → ex (notePath dir stem 1) = true →
        resolve_unique_path ex dir stem ⟨2, h2⟩ = notePath dir stem 2) := by
  constructor
  · intro ex dir stem h
    constructor
    · intro h0
      unfold resolve_unique_path
      rw [(Nat.find_eq_zero h).mpr h0]
    · intro h0
      refine ⟨Nat.find h, ?_, rfl, Nat.find_spec h, ?_⟩
      · rcases Nat.eq_zero_or_pos (Nat.find h) with hz | hp
        · have := (Nat.find_eq_zero h).mp hz
          rw [h0] at this
          exact absurd this (by decide)
        · exact hp
      · intro j hj
        have := Nat.find_min h hj
        exact eq_true_of_ne_false this
  · intro ex dir stem h2 h0 h1
    unfold resolve_unique_path
    have : Nat.find (⟨2, h2⟩ : ∃ k, ex (notePath dir stem k) = false) = 2 := by
      rw [Nat.find_eq_iff]
      refine ⟨h2, ?_⟩
      intro m hm
      interval_cases m
      · rw [h0]; decide
      · rw [h1]; decide
    rw [this]

/-- C9 witness: with `note.md` and `note-1.md` existing and `note-2.md`
free, the loop returns `note-2.md`. -/
theorem c9_witness :
    resolve_unique_path exW [] "note" ⟨2, by decide⟩ = notePath [] "note" 2 :=
  c9_resolve_unique_path.2 exW [] "note" (by decide) (by decide) (by decide)

/-- C1 counterexample: in search mode with two filtered items and the cursor
at 0, a Down key leaves the cursor at 0, not at the clamped
`min(length-1, cursor+1) = 1` the claim requires (the Up/Down branches of
`handle_input` are only reachable in browse mode). -/
theorem c1_counterexample :
    sSearch.search_mode = true ∧ sSearch.filtered_items ≠ [] ∧
    (handle_input fsEmpty KEY_DOWN sSearch).1.cursor_position = 0 ∧
    (handle_input fsEmpty KEY_DOWN sSearch).1.cursor_position ≠
      min (sSearch.filtered_items.length - 1) (sSearch.cursor_position + 1) := by
  refine ⟨rfl, by decide, rfl, by decide⟩

/-- C1 amended: in Search mode an Up or Down key event is a no-op — the
state (in particular `cursor_position`) is unchanged and the loop
continues; the ±1 clamped cursor movement exists only in Browse mode. -/
theorem c1_search_updown_noop :
    ∀ (fs : FS) (key : Nat) (s : ExplorerState),
      s.search_mode = true → key = KEY_UP ∨ key = KEY_DOWN →
      handle_input fs key s = (s, true) := by
  intro fs key s hs hk
  rcases hk with h | h <;> subst h <;>
    simp [handle_input, hs, KEY_UP, KEY_DOWN, KEY_BACKSPACE]

/-- C1 witness: the amended statement at the concrete search state. -/
theorem c1_witness : handle_input fsEmpty KEY_UP sSearch = (sSearch, true) :=
  c1_search_updown_noop fsEmpty KEY_UP sSearch rfl (Or.inl rfl)

/-- C3 counterexample: navigating from a search state into the unreadable
directory `locked` does not keep `items` and `cursor_index` unchanged as the
claim requires — the items are replaced by the parent-only listing and the
cursor is reset. -/
theorem c3_counterexample :
    fsUnreadable.children ["locked"] = none ∧
    (navigate_to fsUnreadable sBefore ["locked"]).items ≠ sBefore.items ∧
    (navigate_to fsUnreadable sBefore ["locked"]).cursor_position ≠
      sBefore.cursor_position := by
  refine ⟨rfl, by decide, by decide⟩

/-- C3 amended: a failing Navigate never raises (the model is a total
function): when resolving the target path fails, the state is completely
unchanged — including the mode, which is not reverted; when the target
resolves but listing it fails (an unreadable directory), the navigation
still completes — mode reverts to Browse, the cursor resets to 0,
`current_path` becomes the target, and `items` is replaced by the
parent-only listing (empty at the filesystem root). -/
theorem c3_navigate_failure :
    ∀ (fs : FS) (s : ExplorerState) (path : List String),
      (fs.resolve path = none → navigate_to fs s path = s) ∧
      (∀ tp, fs.resolve path = some tp → fs.children tp = none →
        navigate_to fs s path =
          { s with current_path := tp, cursor_position := 0,
                   search_mode := false, search_query := "",
                   note_mode := false, note_title := "",
                   items := parentEntries tp }) := by
  intro fs s path
  constructor
  · intro h
    unfold navigate_to
    rw [h]
  · intro tp h1 h2
    unfold navigate_to
    rw [h1]
    unfold scan_directory
    dsimp only
    rw [h2]
    have hcur : (if (parentEntries tp).isEmpty then 0
        else min 0 ((parentEntries tp).length - 1)) = 0 := by
      split
      · rfl
      · exact Nat.min_eq_left (Nat.zero_le _)
    simp only [hcur]

/-- C3 witness: both failure shapes at concrete inputs. -/
theorem c3_witness :
    navigate_to fsNoResolve sBefore ["x"] = sBefore ∧
    navigate_to fsUnreadable sBefore ["locked"] =
      { sBefore with current_path := ["locked"], cursor_position := 0,
                     search_mode := false, search_query := "",
                     note_mode := false, note_title := "",
                     items := parentEntries ["locked"] } :=
  ⟨(c3_navigate_failure fsNoResolve sBefore ["x"]).1 rfl,
   (c3_navigate_failure fsUnreadable sBefore ["locked"]).2 ["locked"] rfl rfl⟩

/-- Characters of the hyphen-collapsed list all come from the input. -/
theorem mem_collapseHyphens {c : Char} :
    ∀ l : List Char, c ∈ collapseHyphens l → c ∈ l := by
  intro l
  induction l using collapseHyphens.induct with
  | case1 => intro h; exact absurd h (by simp [collapseHyphens])
  | case2 d => intro h; simpa [collapseHyphens] using h
  | case3 a b rest hab ih =>
      intro h
      simp only [collapseHyphens] at h
      rw [if_pos hab] at h
      exact List.mem_cons_of_mem a (ih h)
  | case4 a b rest hab ih =>
      intro h
      simp only [collapseHyphens] at h
      rw [if_neg hab] at h
      rcases List.mem_cons.mp h with h | h
      · rw [h]
        exact List.mem_cons_self a (b :: rest)
      · exact List.mem_cons_of_mem a (ih h)

/-- Collapsing hyphen runs keeps the head element. -/
theorem head?_collapseHyphens : ∀ l : List Char, (collapseHyphens l).head? = l.head? := by
  intro l
  induction l using collapseHyphens.induct with
  | case1 => rfl
  | case2 d => rfl
  | case3 a b rest hab ih =>
      obtain ⟨h1, h2⟩ : a = '-' ∧ b = '-' := by simpa using hab
      simp only [collapseHyphens]
      rw [if_pos hab, ih]
      simp [h1, h2]
  | case4 a b rest hab ih =>
      simp only [collapseHyphens]
      rw [if_neg hab]
      rfl

/-- After collapsing, no two adjacent characters are both hyphens. -/
theorem chain'_collapseHyphens :
    ∀ l : List Char, (collapseHyphens l).Chain' (fun a b => ¬(a = '-' ∧ b = '-')) := by
  intro l
  induction l using collapseHyphens.induct with
  | case1 => simp [collapseHyphens]
  | case2 d => simp [collapseHyphens]
  | case3 a b rest hab ih =>
      simp only [collapseHyphens]
      rw [if_pos hab]
      exact ih
  | case4 a b rest hab ih =>
      simp only [collapseHyphens]
      rw [if_neg hab, List.chain'_cons']
      refine ⟨?_, ih⟩
      intro y hy
      rw [head?_collapseHyphens (b :: rest)] at hy
      simp only [List.head?_cons, Option.mem_def, Option.some.injEq] at hy
      subst hy
      intro hcon
      apply hab
      simp [hcon.1, hcon.2]

/-- The head surviving `dropWhile` fails the dropped predicate. -/
theorem head?_dropWhile_ne (p : Char → Bool) :
    ∀ (l : List Char) (c : Char), (l.dropWhile p).head? = some c → p c = false := by
  intro l
  induction l with
  | nil => intro c h; exact absurd h (by simp)
  | cons a t ih =>
      intro c h
      rw [List.dropWhile_cons] at h
      split at h
      · exact ih c h
      · next hpa =>
          simp only [List.head?_cons, Option.some.injEq] at h
          subst h
          exact Bool.eq_false_iff.mpr hpa

/-- A non-empty `dropWhile` result keeps the last element. -/
theorem getLast?_dropWhile (p : Char → Bool) :
    ∀ l : List Char, l.dropWhile p ≠ [] → (l.dropWhile p).getLast? = l.getLast? := by
  intro l
  induction l with
  | nil => intro h; simp at h
  | cons a t ih =>
      intro h
      rw [List.dropWhile_cons] at h ⊢
      by_cases hpa : p a = true
      · rw [if_pos hpa] at h ⊢
        have ht : t ≠ [] := by
          intro he
          subst he
          simp at h
        rw [ih h]
        cases t with
        | nil => exact absurd rfl ht
        | cons x ts => rw [List.getLast?_cons_cons]
      · rw [if_neg hpa]

/-- Characters of the hyphen-stripped list all come from the input. -/
theorem mem_stripHyphens {c : Char} (l : List Char) (h : c ∈ stripHyphens l) : c ∈ l := by
  unfold stripHyphens at h
  rw [List.mem_reverse] at h
  have h1 := (List.dropWhile_suffix _).sublist.subset h
  rw [List.mem_reverse] at h1
  exact (List.dropWhile_suffix _).sublist.subset h1

/-- Stripping outer hyphens preserves the no-adjacent-hyphens property. -/
theorem chain'_stripHyphens (l : List Char)
    (h : l.Chain' (fun a b => ¬(a = '-' ∧ b = '-'))) :
    (stripHyphens l).Chain' (fun a b => ¬(a = '-' ∧ b = '-')) := by
  unfold stripHyphens
  have h1 : (l.dropWhile (· = '-')).Chain' (fun a b => ¬(a = '-' ∧ b = '-')) :=
    h.suffix (List.dropWhile_suffix _)
  have h2 : ((l.dropWhile (· = '-')).reverse).Chain'
      (flip fun a b : Char => ¬(a = '-' ∧ b = '-')) := by
    rw [List.chain'_reverse]
    exact h1
  have h3 := h2.suffix (List.dropWhile_suffix (l := (l.dropWhile (· = '-')).reverse) (· = '-'))
  rw [List.chain'_reverse]
  exact h3

/-- The stripped list does not start with a hyphen. -/
theorem head?_stripHyphens_ne (l : List Char) : (stripHyphens l).head? ≠ some '-' := by
  unfold stripHyphens
  intro hcon
  rw [List.head?_reverse] at hcon
  have hne : (l.dropWhile (· = '-')).reverse.dropWhile (· = '-') ≠ [] := by
    intro he
    rw [he] at hcon
    exact absurd hcon (by simp)
  rw [getLast?_dropWhile _ _ hne, List.getLast?_reverse] at hcon
  have := head?_dropWhile_ne (· = '-') l '-' hcon
  simp at this

/-- The stripped list does not end with a hyphen. -/
theorem getLast?_stripHyphens_ne (l : List Char) : (stripHyphens l).getLast? ≠ some '-' := by
  unfold stripHyphens
  intro hcon
  rw [List.getLast?_reverse] at hcon
  have := head?_dropWhile_ne (· = '-') _ '-' hcon
  simp at this

/-- C6 counterexample: `sanitize("untitled")` yields `"untitled"` although
the sanitized result is not "otherwise empty", refuting the claimed
"exactly when" equivalence (only the forward direction holds). -/
theorem c6_counterexample :
    sanitize_filename "untitled" = "untitled" ∧ sanitizeCore "untitled" ≠ "" :=
  ⟨by decide, by decide⟩

/-- C6 amended: every sanitized title contains only ASCII letters, digits,
hyphens and underscores, has no two adjacent hyphens, and neither starts nor
ends with a hyphen; whenever the sanitization pipeline is empty the result
is the literal `untitled` (the converse does not hold); and the four
concrete examples evaluate as claimed. -/
theorem c6_sanitize_filename :
    (∀ title : String,
        (∀ c ∈ (sanitize_filename title).data, allowedChar c = true) ∧
        (sanitize_filename title).data.Chain' (fun a b => ¬(a = '-' ∧ b = '-')) ∧
        (sanitize_filename title).data.head? ≠ some '-' ∧
        (sanitize_filename title).data.getLast? ≠ some '-' ∧
        (sanitizeCore title = "" → sanitize_filename title = "untitled")) ∧
    sanitize_filename "My Note Title" = "My-Note-Title" ∧
    sanitize_filename "test!@#$%^&*()note" = "testnote" ∧
    sanitize_filename "  spaced  note  " = "spaced-note" ∧
    sanitize_filename "" = "untitled" := by
  refine ⟨?_, by decide, by decide, by decide, by decide⟩
  intro title
  unfold sanitize_filename
  by_cases h : sanitizeCore title = ""
  · rw [if_pos h]
    refine ⟨by decide, ?_, by decide, by decide, fun _ => rfl⟩
    show (['u', 'n', 't', 'i', 't', 'l', 'e', 'd'] : List Char).Chain'
      fun a b => ¬(a = '-' ∧ b = '-')
    simp only [List.chain'_cons, List.chain'_singleton, and_true]
    decide
  · rw [if_neg h]
    unfold sanitizeCore
    dsimp only
    refine ⟨?_, ?_, ?_, ?_, fun hc => absurd hc h⟩
    · intro c hc
      have h1 := mem_stripHyphens _ hc
      have h2 := mem_collapseHyphens _ h1
      exact List.of_mem_filter h2
    · exact chain'_stripHyphens _ (chain'_collapseHyphens _)
    · exact head?_stripHyphens_ne _
    · exact getLast?_stripHyphens_ne _

/-- C6 witness: the amended per-title statement applied at the empty title,
discharging its pipeline-empty hypothesis. -/
theorem c6_witness : sanitize_filename "" = "untitled" :=
  (c6_sanitize_filename.1 "").2.2.2.2 (by decide)

/-- Inserting a pair into any list with the descending-score relation does
not change the sublist of entries carrying one fixed score (the heart of
the stability of Python's `sort(key=..., reverse=True)`). -/
theorem filter_score_orderedInsert (sc : ℚ) (x : ℚ × Item) :
    ∀ m : List (ℚ × Item),
      (List.orderedInsert scoreGe x m).filter (fun p => decide (p.1 = sc)) =
        ((x :: m).filter fun p => decide (p.1 = sc)) := by
  intro m
  induction m with
  | nil => rfl
  | cons y t ih =>
      rw [List.orderedInsert]
      by_cases hxy : scoreGe x y
      · rw [if_pos hxy]
      · rw [if_neg hxy]
        simp only [List.filter_cons, ih]
        by_cases px : x.1 = sc
        · have py : ¬ y.1 = sc := fun hy =>
            hxy (le_of_eq (hy.trans px.symm) : scoreGe x y)
          simp [px, py]
        · simp [px]

/-- The stable insertion sort preserves each fixed-score sublist. -/
theorem filter_score_insertionSort (sc : ℚ) :
    ∀ l : List (ℚ × Item),
      (List.insertionSort scoreGe l).filter (fun p => decide (p.1 = sc)) =
        (l.filter fun p => decide (p.1 = sc)) := by
  intro l
  induction l with
  | nil => rfl
  | cons x t ih =>
      rw [List.insertionSort, filter_score_orderedInsert sc x]
      simp only [List.filter_cons, ih]

/-- Every pair `handle_search` keeps carries its own item's score. -/
theorem kept_fst_eq (query : String) (items : List Item) :
    ∀ p ∈ (items.map fun it => (searchScore query it, it)).filter
        (fun p => decide ((40 : ℚ) < p.1)), p.1 = searchScore query p.2 := by
  intro p hp
  have hm := List.mem_of_mem_filter hp
  rcases List.mem_map.mp hm with ⟨it, _, rfl⟩
  rfl

/-- Dropping the scores from the kept pairs gives exactly the over-threshold
items in their original order. -/
theorem map_snd_kept (query : String) :
    ∀ items : List Item,
      ((items.map fun it => (searchScore query it, it)).filter
          (fun p => decide ((40 : ℚ) < p.1))).map Prod.snd =
        items.filter fun it => decide ((40 : ℚ) < searchScore query it) := by
  intro items
  induction items with
  | nil => rfl
  | cons a t ih =>
      simp only [List.map_cons, List.filter_cons]
      by_cases h : (40 : ℚ) < searchScore query a
      · simp [h, ih]
      · simp [h, ih]

/-- Keeping one fixed score among the over-threshold pairs and dropping the
scores gives the original-order items with that score. -/
theorem map_snd_kept_filter (query : String) (sc : ℚ) :
    ∀ items : List Item,
      ((items.map fun it => (searchScore query it, it)).filter
          (fun p => decide (p.1 = sc) && decide ((40 : ℚ) < p.1))).map Prod.snd =
        items.filter fun it =>
          decide ((40 : ℚ) < searchScore query it) && decide (searchScore query it = sc) := by
  intro items
  induction items with
  | nil => rfl
  | cons a t ih =>
      simp only [List.map_cons, List.filter_cons]
      by_cases h1 : (40 : ℚ) < searchScore query a
      · by_cases h2 : searchScore query a = sc
        · simp [decide_eq_true h1, decide_eq_true h2, ih]
        · simp [decide_eq_true h1, decide_eq_false h2, ih]
      · simp [decide_eq_false h1, ih]

/-- On a pair list whose scores agree with their items, filtering the
projected items by score equals projecting the score-filtered pairs. -/
theorem filter_map_snd_of_fst (query : String) (sc : ℚ) :
    ∀ L : List (ℚ × Item), (∀ p ∈ L, p.1 = searchScore query p.2) →
      (L.map Prod.snd).filter (fun it => decide (searchScore query it = sc)) =
        (L.filter fun p => decide (p.1 = sc)).map Prod.snd := by
  intro L
  induction L with
  | nil => intro _; rfl
  | cons p t ih =>
      intro hall
      have hp := hall p (List.mem_cons_self p t)
      have iht := ih fun q hq => hall q (List.mem_cons_of_mem p hq)
      simp only [List.map_cons, List.filter_cons, hp]
      by_cases h : searchScore query p.2 = sc
      · simp [h, iht]
      · simp [h, iht]

/-- C2 counterexample: for the query `"ab"` on `[zab, ab]` the filter
returns `[ab, zab]` (scores 100 and 80), which is not a subsequence of the
input — the descending re-sort reverses the original order. -/
theorem c2_counterexample :
    computeFilter "ab" [itemZab, itemAb] = [itemAb, itemZab] ∧
    ¬ List.Sublist (computeFilter "ab" [itemZab, itemAb]) [itemZab, itemAb] := by
  have h1 : searchScore "ab" itemZab = 80 := by
    unfold searchScore fuzzRatio
    rw [show strLower "ab" = "ab" from by decide, show strLower itemZab.name = "zab" from by decide]
    norm_num [show ("ab" : String).length = 2 from rfl, show ("zab" : String).length = 3 from rfl]
    rw [show lcsLen "ab".data "zab".data = 2 from by simp [lcsLen]]
    norm_num
  have h2 : searchScore "ab" itemAb = 100 := by
    unfold searchScore fuzzRatio
    rw [show strLower "ab" = "ab" from by decide, show strLower itemAb.name = "ab" from by decide]
    norm_num [show ("ab" : String).length = 2 from rfl]
    rw [show lcsLen "ab".data "ab".data = 2 from by simp [lcsLen]]
    norm_num
  have heval : computeFilter "ab" [itemZab, itemAb] = [itemAb, itemZab] := by
    unfold computeFilter
    rw [if_neg (by decide)]
    simp only [List.map_cons, List.map_nil, List.filter_cons, List.filter_nil, h1, h2]
    norm_num
    simp only [List.insertionSort, List.orderedInsert, scoreGe]
    norm_num
  refine ⟨heval, ?_⟩
  intro hsub
  rw [heval] at hsub
  have hlen := hsub.eq_of_length (by decide)
  exact absurd hlen (by decide)

/-- C2 amended: for every non-empty query, `handle_search`'s filter returns
a permutation of the over-threshold subsequence of `items` (every kept
item's case-insensitive score is strictly above 40), with scores
non-increasing across the result, and with items of equal score kept in
their original `ItemList` order (for each fixed score the result restricted
to that score equals the original items with that score). -/
theorem c2_handle_search :
    ∀ (query : String) (items : List Item), query ≠ "" →
      (computeFilter query items).Perm
          (items.filter fun it => decide ((40 : ℚ) < searchScore query it)) ∧
      (∀ it ∈ computeFilter query items, (40 : ℚ) < searchScore query it) ∧
      (computeFilter query items).Pairwise
          (fun a b => searchScore query b ≤ searchScore query a) ∧
      (∀ sc : ℚ,
        (computeFilter query items).filter (fun it => decide (searchScore query it = sc)) =
          items.filter fun it =>
            decide ((40 : ℚ) < searchScore query it) &&
              decide (searchScore query it = sc)) := by
  intro query items hq
  unfold computeFilter
  rw [if_neg hq]
  dsimp only
  set kept := (items.map fun it => (searchScore query it, it)).filter
    (fun p => decide ((40 : ℚ) < p.1)) with hkept
  have hfst : ∀ p ∈ List.insertionSort scoreGe kept, p.1 = searchScore query p.2 := by
    intro p hp
    exact kept_fst_eq query items p ((List.perm_insertionSort scoreGe kept).mem_iff.mp hp)
  have hperm : ((List.insertionSort scoreGe kept).map Prod.snd).Perm
      (items.filter fun it => decide ((40 : ℚ) < searchScore query it)) := by
    have h0 := (List.perm_insertionSort scoreGe kept).map Prod.snd
    have h1 := map_snd_kept query items
    rw [← hkept] at h1
    rw [h1] at h0
    exact h0
  refine ⟨hperm, ?_, ?_, ?_⟩
  · intro it hit
    have := hperm.mem_iff.mp hit
    have hd := List.of_mem_filter this
    exact of_decide_eq_true hd
  · have hsorted := List.sorted_insertionSort scoreGe kept
    rw [List.pairwise_map]
    refine List.Pairwise.imp_of_mem ?_ hsorted
    intro a b ha hb hr
    rw [← hfst a ha, ← hfst b hb]
    exact hr
  · intro sc
    rw [filter_map_snd_of_fst query sc _ hfst, filter_score_insertionSort sc kept, hkept,
      List.filter_filter]
    exact map_snd_kept_filter query sc items

/-- C2 witness: the amended statement instantiated at query `"ab"` and the
two-item list. -/
theorem c2_witness :
    (computeFilter "ab" [itemZab, itemAb]).Perm
      ([itemZab, itemAb].filter fun it => decide ((40 : ℚ) < searchScore "ab" it)) :=
  (c2_handle_search "ab" [itemZab, itemAb] (by decide)).1

/-- C4: scanning a listable directory produces the optional parent entry
first (present iff the current path is not the filesystem root), followed by
the child entries; every produced child entry comes from a non-hidden raw
child (hidden names are skipped), every non-hidden directory child is
listed, a non-hidden file child is listed iff the classifier accepts it, and
the child entries are ordered directories-before-files with each group
sorted case-insensitively by display name. -/
theorem c4_scan_directory :
    ∀ (fs : FS) (s : ExplorerState) (raws : List RawEntry),
      fs.children s.current_path = some raws →
      ((scan_directory fs s).items =
        parentEntries s.current_path ++ scanEntries fs s.current_path raws) ∧
      (s.current_path = [] → parentEntries s.current_path = []) ∧
      (s.current_path ≠ [] →
        parentEntries s.current_path = [⟨"../", true, s.current_path.dropLast⟩]) ∧
      (∀ it ∈ scanEntries fs s.current_path raws, ∃ r ∈ raws,
        ¬ r.name.startsWith "." ∧
        ((r.kind = some EntryKind.dir ∧
            it = ⟨r.name ++ "/", true, s.current_path ++ [r.name]⟩) ∨
         (r.kind = some EntryKind.file ∧
            is_text_file fs (s.current_path ++ [r.name]) = true ∧
            it = ⟨r.name, false, s.current_path ++ [r.name]⟩))) ∧
      (∀ r ∈ raws, ¬ r.name.startsWith "." →
        (r.kind = some EntryKind.dir →
          (⟨r.name ++ "/", true, s.current_path ++ [r.name]⟩ : Item) ∈
            scanEntries fs s.current_path raws) ∧
        (r.kind = some EntryKind.file →
          ((⟨r.name, false, s.current_path ++ [r.name]⟩ : Item) ∈
              scanEntries fs s.current_path raws ↔
            is_text_file fs (s.current_path ++ [r.name]) = true))) ∧
      (scanEntries fs s.current_path raws).Pairwise (fun a b =>
        (a.isDir = true ∧ b.isDir = false) ∨
        (a.isDir = b.isDir ∧ strLower a.name ≤ strLower b.name)) := by
  intro fs s raws hch
  refine ⟨?_, ?_, ?_, ?_, ?_, ?_⟩
  · unfold scan_directory
    rw [hch]
  · intro hp
    rw [hp]
    rfl
  · intro hp
    unfold parentEntries
    rw [if_pos ?_]
    intro he
    have hlen := congrArg List.length he
    rw [List.length_dropLast] at hlen
    have hpos := List.length_pos.mpr hp
    omega
  · intro it hit
    have hmem := (List.perm_insertionSort scanLe _).mem_iff.mp hit
    rcases List.mem_filterMap.mp hmem with ⟨r, hr, heq⟩
    refine ⟨r, hr, ?_⟩
    unfold childItem at heq
    by_cases hh : r.name.startsWith "."
    · rw [if_pos hh] at heq
      simp at heq
    · rw [if_neg hh] at heq
      refine ⟨hh, ?_⟩
      cases hk : r.kind with
      | none => rw [hk] at heq; simp at heq
      | some k =>
          rw [hk] at heq
          cases k with
          | dir =>
              simp only [Option.some.injEq] at heq
              exact Or.inl ⟨rfl, heq.symm⟩
          | file =>
              by_cases ht : is_text_file fs (s.current_path ++ [r.name]) = true
              · rw [if_pos ht] at heq
                simp only [Option.some.injEq] at heq
                exact Or.inr ⟨rfl, ht, heq.symm⟩
              · rw [if_neg ht] at heq
                simp at heq
          | other => simp at heq
  · intro r hr hh
    constructor
    · intro hk
      refine (List.perm_insertionSort scanLe _).mem_iff.mpr ?_
      refine List.mem_filterMap.mpr ⟨r, hr, ?_⟩
      unfold childItem
      rw [if_neg hh, hk]
    · intro hk
      constructor
      · intro hmem
        have hmem2 := (List.perm_insertionSort scanLe _).mem_iff.mp hmem
        rcases List.mem_filterMap.mp hmem2 with ⟨r2, _, heq⟩
        unfold childItem at heq
        by_cases hh2 : r2.name.startsWith "."
        · rw [if_pos hh2] at heq
          simp at heq
        · rw [if_neg hh2] at heq
          cases hk2 : r2.kind with
          | none => rw [hk2] at heq; simp at heq
          | some k2 =>
              rw [hk2] at heq
              cases k2 with
              | dir => simp at heq
              | file =>
                  by_cases ht2 : is_text_file fs (s.current_path ++ [r2.name]) = true
                  · rw [if_pos ht2] at heq
                    simp only [Option.some.injEq, Item.mk.injEq] at heq
                    obtain ⟨hn, -, -⟩ := heq
                    rw [← hn]
                    exact ht2
                  · rw [if_neg ht2] at heq
                    simp at heq
              | other => simp at heq
      · intro ht
        refine (List.perm_insertionSort scanLe _).mem_iff.mpr ?_
        refine List.mem_filterMap.mpr ⟨r, hr, ?_⟩
        unfold childItem
        rw [if_neg hh, hk, if_pos ht]
  · have hsorted := List.sorted_insertionSort scanLe (raws.filterMap (childItem fs s.current_path))
    refine hsorted.imp ?_
    intro a b hab
    unfold scanLe itemKey at hab
    rcases (Prod.Lex.le_iff _ _).mp hab with hlt | ⟨heq, hle⟩
    · obtain ⟨hfa, hfb⟩ := Bool.lt_iff.mp hlt
      have hfa2 : a.isDir = true := by simpa using hfa
      have hfb2 : b.isDir = false := by simpa using hfb
      exact Or.inl ⟨hfa2, hfb2⟩
    · exact Or.inr ⟨Bool.not_inj heq, hle⟩

/-- C4 witness: the structural equation instantiated on the example
directory `home` (a text file, two directories, a hidden file and a binary
file). -/
theorem c4_witness :
    (scan_directory fsScan sHome).items =
      parentEntries sHome.current_path ++ scanEntries fsScan sHome.current_path raws4 :=
  (c4_scan_directory fsScan sHome raws4 rfl).1

/-- A state whose cursor is 0 satisfies the cursor invariant. -/
theorem cursorInv_of_zero (s : ExplorerState) (h : s.cursor_position = 0) : cursorInv s := by
  constructor
  · intro _
    exact h
  · intro hne
    rw [h]
    exact List.length_pos.mpr hne

/-- `handle_search` always re-establishes the cursor invariant (it resets
the cursor to 0). -/
theorem cursorInv_handle_search (s : ExplorerState) (q : String) :
    cursorInv (handle_search s q) :=
  cursorInv_of_zero _ rfl

/-- `scan_directory` preserves the cursor invariant: the rebuilt item list
comes with a clamped cursor, and in search mode the clamp can only lower
the cursor below the untouched filtered list's length. -/
theorem cursorInv_scan (fs : FS) (s : ExplorerState) (h : cursorInv s) :
    cursorInv (scan_directory fs s) := by
  have hsm : (scan_directory fs s).search_mode = s.search_mode := rfl
  have hfi : (scan_directory fs s).filtered_items = s.filtered_items := rfl
  have hcur : (scan_directory fs s).cursor_position =
      if (scan_directory fs s).items.isEmpty then 0
      else min s.cursor_position ((scan_directory fs s).items.length - 1) := rfl
  obtain ⟨h1, h2⟩ := h
  unfold cursorInv
  unfold activeList at h1 h2 ⊢
  rw [hsm, hfi, hcur]
  by_cases hm : s.search_mode = true
  · rw [if_pos hm] at h1 h2 ⊢
    constructor
    · intro hfe
      have hc := h1 hfe
      rw [hc]
      split <;> simp
    · intro hfn
      have hc := h2 hfn
      have hpos := List.length_pos.mpr hfn
      split
      · exact hpos
      · exact lt_of_le_of_lt (Nat.min_le_left _ _) hc
  · rw [if_neg hm] at h1 h2 ⊢
    constructor
    · intro hie
      rw [hie]
      simp
    · intro hin
      have hpos := List.length_pos.mpr hin
      rw [if_neg (by simpa [List.isEmpty_iff] using hin)]
      omega

/-- `navigate_to` re-establishes the cursor invariant: a resolve failure
leaves the state unchanged, and otherwise the rescan starts from cursor 0. -/
theorem cursorInv_navigate (fs : FS) (s : ExplorerState) (p : List String)
    (h : cursorInv s) : cursorInv (navigate_to fs s p) := by
  unfold navigate_to
  cases hr : fs.resolve p with
  | none => exact h
  | some tp => exact cursorInv_scan fs _ (cursorInv_of_zero _ rfl)

/-- Every `handle_input` transition preserves the cursor invariant. -/
theorem cursorInv_handle_input (fs : FS) (key : Nat) (s : ExplorerState)
    (h : cursorInv s) : cursorInv (handle_input fs key s).1 := by
  unfold handle_input
  dsimp only
  by_cases hsm : s.search_mode = true
  · rw [if_pos hsm]
    by_cases h27 : key = 27
    · rw [if_pos h27]
      exact cursorInv_of_zero _ rfl
    · rw [if_neg h27]
      by_cases hbs : key = 127 ∨ key = KEY_BACKSPACE ∨ key = 8
      · rw [if_pos hbs]
        exact cursorInv_handle_search _ _
      · rw [if_neg hbs]
        by_cases hent : (key = 10 ∨ key = 13) ∧
            (if s.search_mode then s.filtered_items else s.items) ≠ []
        · rw [if_pos hent]
          split
          · split
            · exact cursorInv_navigate _ _ _ h
            · exact h
          · exact h
        · rw [if_neg hent]
          by_cases hpr : 32 ≤ key ∧ key ≤ 126
          · rw [if_pos hpr]
            exact cursorInv_handle_search _ _
          · rw [if_neg hpr]
            exact h
  · rw [if_neg hsm]
    by_cases hnm : s.note_mode = true
    · rw [if_pos hnm]
      split_ifs <;> exact h
    · rw [if_neg hnm]
      by_cases hq : key = 113
      · rw [if_pos hq]
        exact h
      · rw [if_neg hq]
        by_cases hsl : key = 47
        · rw [if_pos hsl]
          exact cursorInv_handle_search _ _
        · rw [if_neg hsl]
          by_cases hcn : key = 14
          · rw [if_pos hcn]
            exact h
          · rw [if_neg hcn]
            by_cases hcd : key = 4
            · rw [if_pos hcd]
              exact h
            · rw [if_neg hcd]
              by_cases hup : key = KEY_UP ∧
                  (if s.search_mode then s.filtered_items else s.items) ≠ []
              · rw [if_pos hup]
                obtain ⟨-, hne⟩ := hup
                rw [if_neg hsm] at hne
                obtain ⟨h1, h2⟩ := h
                unfold cursorInv
                unfold activeList at h1 h2 ⊢
                dsimp only
                rw [if_neg hsm] at h1 h2 ⊢
                constructor
                · intro he
                  exact absurd he hne
                · intro _
                  have := h2 hne
                  omega
              · rw [if_neg hup]
                by_cases hdn : key = KEY_DOWN ∧
                    (if s.search_mode then s.filtered_items else s.items) ≠ []
                · rw [if_pos hdn]
                  obtain ⟨-, hne⟩ := hdn
                  rw [if_neg hsm] at hne
                  obtain ⟨h1, h2⟩ := h
                  unfold cursorInv
                  unfold activeList at h1 h2 ⊢
                  dsimp only
                  rw [if_neg hsm] at h1 h2 ⊢
                  have hpos := List.length_pos.mpr hne
                  constructor
                  · intro he
                    exact absurd he hne
                  · intro _
                    omega
                · rw [if_neg hdn]
                  by_cases hben : (key = 10 ∨ key = 13) ∧
                      (if s.search_mode then s.filtered_items else s.items) ≠ []
                  · rw [if_pos hben]
                    split
                    · split
                      · exact cursorInv_navigate _ _ _ h
                      · exact h
                    · exact h
                  · rw [if_neg hben]
                    exact h

/-- The cursor after scanning a childless directory is 0 (the listing holds
at most the parent entry). -/
theorem scan_empty_cursor (fs : FS) (s : ExplorerState)
    (h : fs.children s.current_path = some []) :
    (scan_directory fs s).cursor_position = 0 := by
  unfold scan_directory
  dsimp only
  rw [h]
  unfold parentEntries scanEntries
  split <;> simp

/-- C7: every key-event transition of `handle_input` preserves the cursor
invariant (cursor within the active list when non-empty, 0 when empty);
every `scan_directory` re-establishes it; and scanning an empty directory
always leaves the cursor at 0. -/
theorem c7_cursor_invariant :
    (∀ (fs : FS) (key : Nat) (s : ExplorerState),
        cursorInv s → cursorInv (handle_input fs key s).1) ∧
    (∀ (fs : FS) (s : ExplorerState), cursorInv s → cursorInv (scan_directory fs s)) ∧
    (∀ (fs : FS) (s : ExplorerState), fs.children s.current_path = some [] →
        (scan_directory fs s).cursor_position = 0) :=
  ⟨cursorInv_handle_input, cursorInv_scan, scan_empty_cursor⟩

/-- C7 witness: the three components at concrete states — a browse state
with two items and cursor 1 under key `q`, a rescan of the example
directory, and a scan of an empty directory. -/
theorem c7_witness :
    cursorInv (handle_input fsEmpty 113 sBrowse).1 ∧
    cursorInv (scan_directory fsScan sBrowse) ∧
    (scan_directory fsEmpty sBrowse).cursor_position = 0 :=
  ⟨c7_cursor_invariant.1 fsEmpty 113 sBrowse
      ⟨fun he => absurd he (by decide), fun _ => by decide⟩,
   c7_cursor_invariant.2.1 fsScan sBrowse
      ⟨fun he => absurd he (by decide), fun _ => by decide⟩,
   c7_cursor_invariant.2.2 fsEmpty sBrowse rfl⟩
